import Mathlib

/-!
Verification of the ImageTranscoderJS core: the dimension-resolution
algorithm (`calculateTargetDimensions` in src/imageProcessor.ts), format
normalization (src/config.ts), the single-image converter (`processImage`),
and the batch loop with its summary (src/index.ts).

Modelling conventions for the TypeScript source:
- Image dimensions and constraint values are natural numbers; optional
  fields become `Option Nat`.  A JavaScript truthiness test `options.x && P`
  on a `number | undefined` field is false exactly when the field is
  `undefined` or `0`, modelled by `truthy`.
- Arithmetic on dimensions is done by the source in exact terms (products
  and quotients of integers), modelled in `ℚ`.  `Math.round x` for the
  nonnegative arguments occurring at every call site is `⌊x + 1/2⌋`
  (round half up), modelled by `jsRound`; results are natural numbers.
- File-system and codec calls (sharp, fs) are external collaborators and
  are modelled as oracle functions returning `Except String`.
-/

/-- JavaScript truthiness of a `number | undefined` value: `undefined` and
`0` are falsy, every other natural number is truthy. -/
def truthy (o : Option Nat) : Bool :=
  match o with
  | none => false
  | some n => n != 0

/-- `Math.round` for nonnegative arguments: round half up.  Every call site
in the resolver passes a nonnegative rational, where `Math.round x = ⌊x + 1/2⌋`. -/
def jsRound (x : ℚ) : Nat :=
  (Int.floor (x + 1/2)).toNat

/-- Processing options handed to the resolver and converter, mirroring the
`ImageProcessingOptions` interface in src/types.ts.  `allowUpscale?: boolean`
is used only in truthiness position, so `undefined` collapses to `false`. -/
structure ImageProcessingOptions where
  format : String
  width : Option Nat
  height : Option Nat
  minWidth : Option Nat
  minHeight : Option Nat
  maxWidth : Option Nat
  maxHeight : Option Nat
  quality : Option Nat
  allowUpscale : Bool
deriving Repr, DecidableEq

/-- Primary scaling stage of `calculateTargetDimensions`
(src/imageProcessor.ts lines 23-39): target width only, target height only,
both (fit inside bounding box), or pass-through. -/
def applyPrimaryScaling (originalWidth originalHeight : Nat)
    (options : ImageProcessingOptions) : Nat × Nat :=
  if truthy options.width && !truthy options.height then
    let w := options.width.getD 0
    (w, jsRound ((originalHeight * w : Nat) / (originalWidth : ℚ)))
  else if truthy options.height && !truthy options.width then
    let h := options.height.getD 0
    (jsRound ((originalWidth * h : Nat) / (originalHeight : ℚ)), h)
  else if truthy options.width && truthy options.height then
    let widthRatio : ℚ := (options.width.getD 0 : ℚ) / originalWidth
    let heightRatio : ℚ := (options.height.getD 0 : ℚ) / originalHeight
    let ratio := min widthRatio heightRatio
    (jsRound (originalWidth * ratio), jsRound (originalHeight * ratio))
  else
    (originalWidth, originalHeight)

/-- Minimum-width stage (src/imageProcessor.ts lines 42-51).  In the
no-upscale branch the source assigns `targetWidth = options.minWidth` first
and then divides by the already-updated `targetWidth`, reproduced here by
the `let targetWidth := m` binding used as the divisor. -/
def applyMinWidth (options : ImageProcessingOptions) (wh : Nat × Nat) :
    Nat × Nat :=
  match options.minWidth with
  | none => wh
  | some m =>
    if m ≠ 0 ∧ wh.1 < m then
      if options.allowUpscale then
        let scale : ℚ := (m : ℚ) / wh.1
        (m, jsRound (wh.2 * scale))
      else
        let targetWidth := m
        (targetWidth, jsRound ((wh.2 * m : Nat) / (targetWidth : ℚ)))
    else wh

/-- Minimum-height stage (src/imageProcessor.ts lines 52-61), symmetric to
`applyMinWidth` with the same post-assignment divisor in the no-upscale
branch. -/
def applyMinHeight (options : ImageProcessingOptions) (wh : Nat × Nat) :
    Nat × Nat :=
  match options.minHeight with
  | none => wh
  | some m =>
    if m ≠ 0 ∧ wh.2 < m then
      if options.allowUpscale then
        let scale : ℚ := (m : ℚ) / wh.2
        (jsRound (wh.1 * scale), m)
      else
        let targetHeight := m
        (jsRound ((wh.1 * m : Nat) / (targetHeight : ℚ)), targetHeight)
    else wh

/-- Maximum-width stage (src/imageProcessor.ts lines 64-68); `scale` is
computed before the width is overwritten, so the divisor is the
pre-assignment width. -/
def applyMaxWidth (options : ImageProcessingOptions) (wh : Nat × Nat) :
    Nat × Nat :=
  match options.maxWidth with
  | none => wh
  | some m =>
    if m ≠ 0 ∧ m < wh.1 then
      let scale : ℚ := (m : ℚ) / wh.1
      (m, jsRound (wh.2 * scale))
    else wh

/-- Maximum-height stage (src/imageProcessor.ts lines 69-73), symmetric to
`applyMaxWidth`. -/
def applyMaxHeight (options : ImageProcessingOptions) (wh : Nat × Nat) :
    Nat × Nat :=
  match options.maxHeight with
  | none => wh
  | some m =>
    if m ≠ 0 ∧ m < wh.2 then
      let scale : ℚ := (m : ℚ) / wh.2
      (jsRound (wh.1 * scale), m)
    else wh

/-- The dimension resolver `calculateTargetDimensions`
(src/imageProcessor.ts lines 15-76): primary scaling, then minimum
constraints, then maximum constraints, each stage feeding the next. -/
def calculateTargetDimensions (originalWidth originalHeight : Nat)
    (options : ImageProcessingOptions) : Nat × Nat :=
  applyMaxHeight options
    (applyMaxWidth options
      (applyMinHeight options
        (applyMinWidth options
          (applyPrimaryScaling originalWidth originalHeight options))))

/-- A present optional constraint is a positive integer (spec data model:
each constraint field is an optional positive integer). -/
def posOpt (o : Option Nat) : Bool :=
  match o with
  | none => true
  | some n => decide (1 ≤ n)

/-- Ordered pair of optional bounds: when both are present the first does
not exceed the second. -/
def leOpt (a b : Option Nat) : Bool :=
  match a, b with
  | some x, some y => decide (x ≤ y)
  | _, _ => true

/-- Well-formed constraint set: every present field is a positive integer
and `min ≤ max` on each axis where both are present. -/
def wellFormedConstraints (o : ImageProcessingOptions) : Bool :=
  posOpt o.width && posOpt o.height &&
  posOpt o.minWidth && posOpt o.minHeight &&
  posOpt o.maxWidth && posOpt o.maxHeight &&
  leOpt o.minWidth o.maxWidth && leOpt o.minHeight o.maxHeight

/-- ASCII lower-casing of a string, character by character, modelling
`String.prototype.toLowerCase` on the ASCII format names the program
works with. -/
def jsToLower (s : String) : String :=
  String.mk (s.data.map Char.toLower)

/-- Output formats accepted by the converter (src/config.ts lines 27-36). -/
def SUPPORTED_OUTPUT_FORMATS : List String :=
  ["jpg", "jpeg", "png", "webp", "gif", "tiff", "bmp", "avif"]

/-- Formats that accept a quality setting (src/config.ts lines 41-46). -/
def QUALITY_SUPPORTED_FORMATS : List String :=
  ["jpg", "jpeg", "webp", "avif"]

/-- Membership test for writable formats (src/config.ts lines 73-75);
the source lower-cases its argument before the membership test. -/
def isSupportedOutputFormat (format : String) : Bool :=
  SUPPORTED_OUTPUT_FORMATS.contains (jsToLower format)

/-- Quality-capability test (src/config.ts lines 83-85); no lower-casing
in the source. -/
def formatSupportsQuality (format : String) : Bool :=
  QUALITY_SUPPORTED_FORMATS.contains format

/-- Format normalization (src/config.ts lines 94-103): lower-case, map
`jpg` to `jpeg`, and reject anything outside the writable set with an
`Unsupported format` error. -/
def normalizeFormat (format : String) : Except String String :=
  let normalized := jsToLower format
  if normalized = "jpg" then Except.ok "jpeg"
  else if isSupportedOutputFormat normalized then Except.ok normalized
  else Except.error ("Unsupported format: " ++ format)

/-- Per-file outcome, mirroring the `ProcessResult` interface in
src/types.ts: optional fields are `none` when absent. -/
structure ProcessResult where
  inputPath : String
  outputPath : String
  success : Bool
  error : Option String
  originalSize : Option Nat
  newSize : Option Nat
deriving Repr, DecidableEq

/-- External collaborators of `processImage` (fs and the sharp codec),
modelled as oracles that either produce a value or fail with a message:
`statSize` is the initial `fs.stat`, `readMetadata` the sharp metadata
read (fields may be `undefined`), `toFile` the encode-and-write step
taking the optional resize spec (width, height, withoutEnlargement),
the sharp format name and the optional quality, and `statSizeAfterWrite`
the final `fs.stat` on the written output. -/
structure SharpEnv where
  statSize : String → Except String Nat
  readMetadata : String → Except String (Option Nat × Option Nat)
  toFile : String → String → Option (Nat × Nat × Bool) → String → Option Nat →
    Except String Unit
  statSizeAfterWrite : String → Except String Nat

/-- Body of the `try` block of `processImage` (src/imageProcessor.ts lines
91-141): stat, metadata, dimension check, resolve, resize spec, format
normalization, quality selection, write, re-stat; the first failure
short-circuits.  Returns the original and new byte sizes. -/
def processImageBody (env : SharpEnv) (inputPath outputPath : String)
    (options : ImageProcessingOptions) : Except String (Nat × Nat) := do
  let originalSize ← env.statSize inputPath
  let meta ← env.readMetadata inputPath
  if !truthy meta.1 || !truthy meta.2 then
    Except.error "Unable to read image dimensions"
  else
    let mw := meta.1.getD 0
    let mh := meta.2.getD 0
    let wh := calculateTargetDimensions mw mh options
    let resizeSpec : Option (Nat × Nat × Bool) :=
      if wh.1 ≠ mw ∨ wh.2 ≠ mh then some (wh.1, wh.2, !options.allowUpscale)
      else none
    let format ← normalizeFormat options.format
    let sharpFormat := if format = "jpeg" then "jpg" else format
    let qualityArg : Option Nat :=
      if formatSupportsQuality format ∧ options.quality ≠ none then
        options.quality
      else none
    let _ ← env.toFile inputPath outputPath resizeSpec sharpFormat qualityArg
    let newSize ← env.statSizeAfterWrite outputPath
    Except.ok (originalSize, newSize)

/-- The single-image converter `processImage` (src/imageProcessor.ts lines
86-150): the `catch` clause turns any failure of the body into a
`ProcessResult` with `success = false` and the error message; a success
carries both byte sizes. -/
def processImage (env : SharpEnv) (inputPath outputPath : String)
    (options : ImageProcessingOptions) : ProcessResult :=
  match processImageBody env inputPath outputPath options with
  | Except.ok sizes =>
    ⟨inputPath, outputPath, true, none, some sizes.1, some sizes.2⟩
  | Except.error e =>
    ⟨inputPath, outputPath, false, some e, none, none⟩

/-- State threaded through the batch loop of `convertDirectory`
(src/index.ts lines 139-180): the set of existing output paths, the
accumulated results, and the trace of inputs for which the single-image
converter was actually invoked. -/
structure BatchState where
  fs : List String
  results : List ProcessResult
  calls : List String
deriving Repr, DecidableEq

/-- The fixed result recorded when the output path already exists and
overwrite is not permitted (src/index.ts lines 150-155). -/
def existsFailure (inputPath outputPath : String) : ProcessResult :=
  ⟨inputPath, outputPath, false,
    some "Output file already exists. Use --overwrite to replace it.",
    none, none⟩

/-- One iteration of the batch loop (src/index.ts lines 142-180): compute
the output path, skip with the fixed failure when it exists and overwrite
is off, otherwise invoke the converter (modelled by `oracle`, which may
create files and so returns the updated file set). -/
def batchStep (oracle : String → String → List String → ProcessResult × List String)
    (outPathOf : String → String) (overwrite : Bool) (st : BatchState)
    (inputPath : String) : BatchState :=
  let outputPath := outPathOf inputPath
  if !overwrite && st.fs.contains outputPath then
    ⟨st.fs, st.results ++ [existsFailure inputPath outputPath], st.calls⟩
  else
    let r := oracle inputPath outputPath st.fs
    ⟨r.2, st.results ++ [r.1], st.calls ++ [inputPath]⟩

/-- The batch loop over the discovered files in discovery order. -/
def runBatch (oracle : String → String → List String → ProcessResult × List String)
    (outPathOf : String → String) (overwrite : Bool) (files : List String)
    (st : BatchState) : BatchState :=
  files.foldl (batchStep oracle outPathOf overwrite) st

/-- Aggregate outcome of a batch run, mirroring `ProcessingSummary` in
src/types.ts. -/
structure ProcessingSummary where
  total : Nat
  successful : Nat
  failed : Nat
  results : List ProcessResult
deriving Repr, DecidableEq

/-- The directory converter `convertDirectory` (src/index.ts lines
118-191): early return on an empty discovery list, otherwise run the
batch loop and aggregate the results by the two filters of lines 182-183. -/
def convertDirectory
    (oracle : String → String → List String → ProcessResult × List String)
    (outPathOf : String → String) (overwrite : Bool) (files : List String)
    (fs0 : List String) : ProcessingSummary :=
  if files.isEmpty then ⟨0, 0, 0, []⟩
  else
    let st := runBatch oracle outPathOf overwrite files ⟨fs0, [], []⟩
    let successful := (st.results.filter (fun r => r.success)).length
    let failed := (st.results.filter (fun r => !r.success)).length
    ⟨st.results.length, successful, failed, st.results⟩

theorem jsRound_div (a c : Nat) :
    jsRound ((a : ℚ) / c) = (2 * a + c) / (2 * c) := by
  unfold jsRound
  rcases Nat.eq_zero_or_pos c with hc | hc
  · subst hc
    norm_num
  · have hc0 : ((c : ℚ)) ≠ 0 := by positivity
    have hx : (a : ℚ) / c + 1/2 = ((2 * a + c : Nat) : ℚ) / ((2 * c : Nat) : ℚ) := by
      push_cast
      field_simp
      ring
    rw [hx, Rat.floor_natCast_div_natCast]
    exact Int.toNat_natCast _

theorem jsRound_mul_div (h m w : Nat) :
    jsRound ((h : ℚ) * ((m : ℚ) / (w : ℚ))) = (2 * (h * m) + w) / (2 * w) := by
  rw [show (h : ℚ) * ((m : ℚ) / (w : ℚ)) = ((h * m : Nat) : ℚ) / (w : ℚ) by
    push_cast; ring]
  exact jsRound_div (h * m) w

theorem jsRound_eq_of {x : ℚ} {n : Nat} (h1 : (n : ℚ) ≤ x + 1/2)
    (h2 : x + 1/2 < (n : ℚ) + 1) : jsRound x = n := by
  unfold jsRound
  have h : Int.floor (x + 1/2) = (n : ℤ) := by
    rw [Int.floor_eq_iff]
    constructor
    · push_cast
      linarith
    · push_cast
      linarith
  rw [h]
  exact Int.toNat_natCast n

theorem jsRound_mono {x y : ℚ} (h : x ≤ y) : jsRound x ≤ jsRound y := by
  unfold jsRound
  exact Int.toNat_le_toNat (Int.floor_le_floor (by linarith))

theorem jsRound_natCast (n : Nat) : jsRound (n : ℚ) = n := by
  unfold jsRound
  have h : Int.floor ((n : ℚ) + 1/2) = (n : ℤ) := by
    rw [Int.floor_eq_iff]
    constructor
    · push_cast; linarith
    · push_cast; linarith
  rw [h]
  exact Int.toNat_natCast n

theorem applyMaxWidth_fst_le (o : ImageProcessingOptions) (wh : Nat × Nat) (m : Nat)
    (hm : o.maxWidth = some m) (hpos : 1 ≤ m) : (applyMaxWidth o wh).1 ≤ m := by
  by_cases hc : m ≠ 0 ∧ m < wh.1
  · simp [applyMaxWidth, hm, hc]
  · simp [applyMaxWidth, hm, hc]
    omega

theorem applyMaxHeight_snd_le (o : ImageProcessingOptions) (wh : Nat × Nat) (m : Nat)
    (hm : o.maxHeight = some m) (hpos : 1 ≤ m) : (applyMaxHeight o wh).2 ≤ m := by
  by_cases hc : m ≠ 0 ∧ m < wh.2
  · simp [applyMaxHeight, hm, hc]
  · simp [applyMaxHeight, hm, hc]
    omega

theorem applyMaxHeight_fst_le (o : ImageProcessingOptions) (wh : Nat × Nat) :
    (applyMaxHeight o wh).1 ≤ wh.1 := by
  cases hm : o.maxHeight with
  | none => simp [applyMaxHeight, hm]
  | some m =>
    by_cases hc : m ≠ 0 ∧ m < wh.2
    · have hh2 : (0 : ℚ) < (wh.2 : ℚ) := by
        have h2 : 0 < wh.2 := lt_of_le_of_lt (Nat.zero_le m) hc.2
        exact_mod_cast h2
      have hscale : (m : ℚ) / (wh.2 : ℚ) ≤ 1 := by
        rw [div_le_one hh2]
        exact_mod_cast le_of_lt hc.2
      have hle : jsRound ((wh.1 : ℚ) * ((m : ℚ) / (wh.2 : ℚ))) ≤ wh.1 := by
        calc jsRound ((wh.1 : ℚ) * ((m : ℚ) / (wh.2 : ℚ)))
            ≤ jsRound ((wh.1 : Nat) : ℚ) :=
              jsRound_mono (mul_le_of_le_one_right (by positivity) hscale)
          _ = wh.1 := jsRound_natCast wh.1
      simp [applyMaxHeight, hm, hc]
      exact hle
    · simp [applyMaxHeight, hm, hc]

theorem batchStep_skip
    (oracle : String → String → List String → ProcessResult × List String)
    (outPathOf : String → String) (st : BatchState) (f : String)
    (hex : st.fs.contains (outPathOf f) = true) :
    batchStep oracle outPathOf false st f =
      ⟨st.fs, st.results ++ [existsFailure f (outPathOf f)], st.calls⟩ := by
  have hmem : outPathOf f ∈ st.fs := by simpa using hex
  simp [batchStep, hmem]

theorem runBatch_cons
    (oracle : String → String → List String → ProcessResult × List String)
    (outPathOf : String → String) (overwrite : Bool) (f : String)
    (rest : List String) (st : BatchState) :
    runBatch oracle outPathOf overwrite (f :: rest) st =
      runBatch oracle outPathOf overwrite rest
        (batchStep oracle outPathOf overwrite st f) := rfl

theorem runBatch_append
    (oracle : String → String → List String → ProcessResult × List String)
    (outPathOf : String → String) (overwrite : Bool) (l1 l2 : List String)
    (st : BatchState) :
    runBatch oracle outPathOf overwrite (l1 ++ l2) st =
      runBatch oracle outPathOf overwrite l2
        (runBatch oracle outPathOf overwrite l1 st) :=
  List.foldl_append _ _ _ _

theorem mem_calls_runBatch
    (oracle : String → String → List String → ProcessResult × List String)
    (outPathOf : String → String) (overwrite : Bool) (files : List String) :
    ∀ (st : BatchState) (x : String),
      x ∈ (runBatch oracle outPathOf overwrite files st).calls →
      x ∈ st.calls ∨ x ∈ files := by
  induction files with
  | nil =>
    intro st x h
    exact Or.inl h
  | cons a l ih =>
    intro st x h
    rw [runBatch_cons] at h
    rcases ih _ x h with h1 | h1
    · by_cases hc : overwrite = false ∧ outPathOf a ∈ st.fs
      · simp [batchStep, hc] at h1
        exact Or.inl h1
      · simp [batchStep, hc] at h1
        rcases h1 with h1 | h1
        · exact Or.inl h1
        · exact Or.inr (h1 ▸ List.mem_cons_self a l)
    · exact Or.inr (List.mem_cons_of_mem a h1)

/-- Claim C1: in the minimum-width enforcement with upscale disallowed
(minWidth set and positive, current width below it, allowUpscale false),
the width is set to minWidth and the height is recomputed with the
post-assignment width as divisor, so the recomputed height equals
round(height * minWidth / minWidth), which is the unchanged height: the
aspect ratio is not repaired on this path. -/
theorem minWidth_noUpscale_recompute (o : ImageProcessingOptions) (w h m : Nat)
    (hm : o.minWidth = some m) (hpos : 1 ≤ m) (hlt : w < m)
    (hup : o.allowUpscale = false) :
    applyMinWidth o (w, h) = (m, jsRound (((h * m : Nat) : ℚ) / (m : ℚ))) ∧
      jsRound (((h * m : Nat) : ℚ) / (m : ℚ)) = h := by
  have hm0 : (m : ℚ) ≠ 0 := ne_of_gt (by exact_mod_cast hpos)
  have he : ((h * m : Nat) : ℚ) / (m : ℚ) = (h : ℚ) := by
    push_cast
    field_simp
  refine ⟨?_, by rw [he]; exact jsRound_natCast h⟩
  simp [applyMinWidth, hm, hup, hlt, Nat.one_le_iff_ne_zero.mp hpos]

/-- Witness for C1: a 100x80 image with minWidth 200 and no upscale
resolves the min-width stage to 200x80, the height untouched. -/
theorem minWidth_noUpscale_recompute_witness :
    applyMinWidth ⟨"png", none, none, some 200, none, none, none, none, false⟩
        (100, 80) =
      (200, jsRound (((80 * 200 : Nat) : ℚ) / ((200 : Nat) : ℚ))) ∧
      jsRound (((80 * 200 : Nat) : ℚ) / ((200 : Nat) : ℚ)) = 80 :=
  minWidth_noUpscale_recompute _ 100 80 200 rfl (by decide) (by decide) rfl

/-- Claim C2: for well-formed inputs, the resolved width never exceeds a
present maxWidth and the resolved height never exceeds a present
maxHeight, whatever allowUpscale is. -/
theorem resolve_respects_max_bounds (ow oh : Nat) (o : ImageProcessingOptions)
    (how : 1 ≤ ow) (hoh : 1 ≤ oh) (hwf : wellFormedConstraints o = true) :
    (∀ m, o.maxWidth = some m → (calculateTargetDimensions ow oh o).1 ≤ m) ∧
    (∀ m, o.maxHeight = some m → (calculateTargetDimensions ow oh o).2 ≤ m) := by
  have hposW : ∀ m, o.maxWidth = some m → 1 ≤ m := by
    intro m hm
    have h := hwf
    simp [wellFormedConstraints, posOpt, hm] at h
    omega
  have hposH : ∀ m, o.maxHeight = some m → 1 ≤ m := by
    intro m hm
    have h := hwf
    simp [wellFormedConstraints, posOpt, hm] at h
    omega
  constructor
  · intro m hm
    unfold calculateTargetDimensions
    exact le_trans (applyMaxHeight_fst_le o _)
      (applyMaxWidth_fst_le o _ m hm (hposW m hm))
  · intro m hm
    exact applyMaxHeight_snd_le o _ m hm (hposH m hm)

/-- Witness for C2: a 1000x800 image under maxWidth 100 (with upscale
allowed) resolves to a width of at most 100. -/
theorem resolve_respects_max_bounds_witness :
    (calculateTargetDimensions 1000 800
      ⟨"png", none, none, none, none, some 100, some 50, none, true⟩).1 ≤ 100 :=
  (resolve_respects_max_bounds 1000 800 _ (by decide) (by decide)
    (by decide)).1 100 rfl

/-- Claim C3: with both targets set and no min or max constraints, the
resolved dimensions fit inside the requested box and at least one side
equals its bound exactly. -/
theorem resolve_both_targets_fit_box (ow oh tw th : Nat)
    (o : ImageProcessingOptions)
    (how : 1 ≤ ow) (hoh : 1 ≤ oh) (htw : 1 ≤ tw) (hth : 1 ≤ th)
    (hw : o.width = some tw) (hh : o.height = some th) (hminw : o.minWidth = none)
    (hminh : o.minHeight = none) (hmaxw : o.maxWidth = none)
    (hmaxh : o.maxHeight = none) :
    (calculateTargetDimensions ow oh o).1 ≤ tw ∧
    (calculateTargetDimensions ow oh o).2 ≤ th ∧
    ((calculateTargetDimensions ow oh o).1 = tw ∨
      (calculateTargetDimensions ow oh o).2 = th) := by
  have how0 : (0 : ℚ) < (ow : ℚ) := by exact_mod_cast how
  have hoh0 : (0 : ℚ) < (oh : ℚ) := by exact_mod_cast hoh
  simp [calculateTargetDimensions, applyPrimaryScaling, applyMinWidth, applyMinHeight,
    applyMaxWidth, applyMaxHeight, truthy, hw, hh, hminw, hminh, hmaxw, hmaxh,
    Nat.one_le_iff_ne_zero.mp htw, Nat.one_le_iff_ne_zero.mp hth]
  rcases le_total ((tw : ℚ) / ow) ((th : ℚ) / oh) with hc | hc
  · have e1 : (ow : ℚ) * ((tw : ℚ) / ow ⊓ (th : ℚ) / oh) = ((tw : Nat) : ℚ) := by
      rw [inf_eq_left.mpr hc]
      field_simp
    have e2 : (oh : ℚ) * ((tw : ℚ) / ow ⊓ (th : ℚ) / oh) ≤ ((th : Nat) : ℚ) := by
      rw [inf_eq_left.mpr hc]
      calc (oh : ℚ) * ((tw : ℚ) / ow) ≤ (oh : ℚ) * ((th : ℚ) / oh) :=
            mul_le_mul_of_nonneg_left hc (le_of_lt hoh0)
        _ = ((th : Nat) : ℚ) := by field_simp
    refine ⟨?_, ?_, Or.inl ?_⟩
    · rw [e1, jsRound_natCast]
    · calc jsRound ((oh : ℚ) * ((tw : ℚ) / ow ⊓ (th : ℚ) / oh))
          ≤ jsRound ((th : Nat) : ℚ) := jsRound_mono e2
        _ = th := jsRound_natCast th
    · rw [e1, jsRound_natCast]
  · have e1 : (oh : ℚ) * ((tw : ℚ) / ow ⊓ (th : ℚ) / oh) = ((th : Nat) : ℚ) := by
      rw [inf_eq_right.mpr hc]
      field_simp
    have e2 : (ow : ℚ) * ((tw : ℚ) / ow ⊓ (th : ℚ) / oh) ≤ ((tw : Nat) : ℚ) := by
      rw [inf_eq_right.mpr hc]
      calc (ow : ℚ) * ((th : ℚ) / oh) ≤ (ow : ℚ) * ((tw : ℚ) / ow) :=
            mul_le_mul_of_nonneg_left hc (le_of_lt how0)
        _ = ((tw : Nat) : ℚ) := by field_simp
    refine ⟨?_, ?_, Or.inr ?_⟩
    · calc jsRound ((ow : ℚ) * ((tw : ℚ) / ow ⊓ (th : ℚ) / oh))
          ≤ jsRound ((tw : Nat) : ℚ) := jsRound_mono e2
        _ = tw := jsRound_natCast tw
    · rw [e1, jsRound_natCast]
    · rw [e1, jsRound_natCast]

/-- Witness for C3: an 800x600 image with targets 400x400 fits the box and
hits the width bound. -/
theorem resolve_both_targets_fit_box_witness :
    (calculateTargetDimensions 800 600
      ⟨"png", some 400, some 400, none, none, none, none, none, false⟩).1 ≤ 400 ∧
    (calculateTargetDimensions 800 600
      ⟨"png", some 400, some 400, none, none, none, none, none, false⟩).2 ≤ 400 ∧
    ((calculateTargetDimensions 800 600
        ⟨"png", some 400, some 400, none, none, none, none, none, false⟩).1 = 400 ∨
      (calculateTargetDimensions 800 600
        ⟨"png", some 400, some 400, none, none, none, none, none, false⟩).2 = 400) :=
  resolve_both_targets_fit_box 800 600 400 400 _ (by decide) (by decide)
    (by decide) (by decide) rfl rfl rfl rfl rfl rfl

/-- Claim C4: with only targetWidth set (no other constraint), the resolver
returns exactly targetWidth and round(originalHeight * targetWidth /
originalWidth), preserving the aspect ratio within rounding. -/
theorem resolve_only_targetWidth (ow oh tw : Nat) (o : ImageProcessingOptions)
    (how : 1 ≤ ow) (hoh : 1 ≤ oh) (htw : 1 ≤ tw)
    (hw : o.width = some tw) (hh : o.height = none) (hminw : o.minWidth = none)
    (hminh : o.minHeight = none) (hmaxw : o.maxWidth = none)
    (hmaxh : o.maxHeight = none) :
    calculateTargetDimensions ow oh o =
      (tw, jsRound (((oh * tw : Nat) : ℚ) / (ow : ℚ))) := by
  simp [calculateTargetDimensions, applyPrimaryScaling, applyMinWidth, applyMinHeight,
    applyMaxWidth, applyMaxHeight, truthy, hw, hh, hminw, hminh, hmaxw, hmaxh,
    Nat.one_le_iff_ne_zero.mp htw]

/-- Witness for C4: a 1000x500 image with targetWidth 500 resolves to
500x250. -/
theorem resolve_only_targetWidth_witness :
    calculateTargetDimensions 1000 500
      ⟨"png", some 500, none, none, none, none, none, none, false⟩ = (500, 250) := by
  have h := resolve_only_targetWidth 1000 500 500
    ⟨"png", some 500, none, none, none, none, none, none, false⟩
    (by decide) (by decide) (by decide) rfl rfl rfl rfl rfl rfl
  rw [h]
  have h2 : jsRound (((500 * 500 : Nat) : ℚ) / ((1000 : Nat) : ℚ)) = 250 :=
    jsRound_eq_of (by norm_num) (by norm_num)
  rw [h2]

/-- Claim C5: maximum constraints run after minimum constraints and the
minimums are not re-checked: the well-formed input 1000x1000 with
minWidth 500 and maxHeight 100 resolves to 100x100, a width strictly
below the requested minimum. -/
theorem max_overrides_min_example :
    wellFormedConstraints
        ⟨"png", none, none, some 500, none, none, some 100, none, false⟩ = true ∧
    calculateTargetDimensions 1000 1000
        ⟨"png", none, none, some 500, none, none, some 100, none, false⟩ =
      (100, 100) ∧
    (100 : Nat) < 500 := by
  refine ⟨by decide, ?_, by decide⟩
  simp [calculateTargetDimensions, applyPrimaryScaling, applyMinWidth, applyMinHeight,
    applyMaxWidth, applyMaxHeight, truthy]
  exact jsRound_eq_of (by norm_num) (by norm_num)

/-- Claim C6: resolving with no constraint set at all returns the original
dimensions unchanged. -/
theorem resolve_no_constraints_id (ow oh : Nat) (o : ImageProcessingOptions)
    (hw : o.width = none) (hh : o.height = none) (hminw : o.minWidth = none)
    (hminh : o.minHeight = none) (hmaxw : o.maxWidth = none)
    (hmaxh : o.maxHeight = none) :
    calculateTargetDimensions ow oh o = (ow, oh) := by
  simp [calculateTargetDimensions, applyPrimaryScaling, applyMinWidth, applyMinHeight,
    applyMaxWidth, applyMaxHeight, truthy, hw, hh, hminw, hminh, hmaxw, hmaxh]

/-- Witness for C6: a 640x480 image with the empty constraint set resolves
to 640x480. -/
theorem resolve_no_constraints_id_witness :
    calculateTargetDimensions 640 480
      ⟨"png", none, none, none, none, none, none, none, false⟩ = (640, 480) :=
  resolve_no_constraints_id 640 480 _ rfl rfl rfl rfl rfl rfl

/-- Claim C7: normalization lower-cases and maps jpg to jpeg, so JPG, jpg
and jpeg normalize alike, and it fails exactly when the lower-cased,
jpg-mapped input is outside the writable-format set. -/
theorem normalizeFormat_spec :
    normalizeFormat "JPG" = Except.ok "jpeg" ∧
    normalizeFormat "jpg" = Except.ok "jpeg" ∧
    normalizeFormat "jpeg" = Except.ok "jpeg" ∧
    ∀ s : String, (∃ e, normalizeFormat s = Except.error e) ↔
      isSupportedOutputFormat (if jsToLower s = "jpg" then "jpeg" else jsToLower s)
        = false := by
  refine ⟨by rfl, by rfl, by rfl, ?_⟩
  intro s
  simp only [normalizeFormat]
  by_cases h1 : jsToLower s = "jpg"
  · simp [h1]
    decide
  · by_cases h2 : isSupportedOutputFormat (jsToLower s) = true
    · simp [h1, h2]
    · simp [h1, h2]

/-- Claim C8: the single-image converter is total: it returns either a
success carrying both byte sizes or a failure carrying an error message,
for every environment, path pair and option set. -/
theorem processImage_result_shape (env : SharpEnv) (inputPath outputPath : String)
    (options : ImageProcessingOptions) :
    ((processImage env inputPath outputPath options).success = true ∧
      (processImage env inputPath outputPath options).originalSize ≠ none ∧
      (processImage env inputPath outputPath options).newSize ≠ none) ∨
    ((processImage env inputPath outputPath options).success = false ∧
      (processImage env inputPath outputPath options).error ≠ none) := by
  unfold processImage
  split <;> simp

/-- Claim C9: during a batch walk with overwrite off, a file whose output
path exists in the file set at its own turn (after the earlier files ran)
is recorded with the fixed already-exists failure, the converter is not
invoked for it, and the loop continues with the remaining files. -/
theorem batch_skip_existing_output
    (oracle : String → String → List String → ProcessResult × List String)
    (outPathOf : String → String) (done : List String) (f : String)
    (rest : List String) (st0 : BatchState)
    (hnodup : (done ++ f :: rest).Nodup) (hf0 : f ∉ st0.calls)
    (hexists : (runBatch oracle outPathOf false done st0).fs.contains (outPathOf f)
      = true) :
    runBatch oracle outPathOf false (done ++ f :: rest) st0 =
      runBatch oracle outPathOf false rest
        ⟨(runBatch oracle outPathOf false done st0).fs,
          (runBatch oracle outPathOf false done st0).results ++
            [existsFailure f (outPathOf f)],
          (runBatch oracle outPathOf false done st0).calls⟩ ∧
    f ∉ (runBatch oracle outPathOf false (done ++ f :: rest) st0).calls := by
  have heq : runBatch oracle outPathOf false (done ++ f :: rest) st0 =
      runBatch oracle outPathOf false rest
        ⟨(runBatch oracle outPathOf false done st0).fs,
          (runBatch oracle outPathOf false done st0).results ++
            [existsFailure f (outPathOf f)],
          (runBatch oracle outPathOf false done st0).calls⟩ := by
    rw [runBatch_append, runBatch_cons,
      batchStep_skip oracle outPathOf _ f hexists]
  refine ⟨heq, ?_⟩
  have hsplit := List.nodup_append.mp hnodup
  have hfdone : f ∉ done := fun hmem => hsplit.2.2 hmem (List.mem_cons_self f rest)
  have hfrest : f ∉ rest := (List.nodup_cons.mp hsplit.2.1).1
  rw [heq]
  intro hmem
  rcases mem_calls_runBatch oracle outPathOf false rest _ f hmem with h | h
  · simp only at h
    rcases mem_calls_runBatch oracle outPathOf false done st0 f h with h2 | h2
    · exact hf0 h2
    · exact hfdone h2
  · exact hfrest h

/-- Witness for C9: with two files mapping to the same output path and an
oracle that creates the output, the second file is skipped and never
reaches the converter. -/
theorem batch_skip_existing_output_witness :
    "b" ∉ (runBatch
        (fun i o fs => (⟨i, o, true, none, some 10, some 5⟩, o :: fs))
        (fun _ => "out") false ["a", "b"] ⟨[], [], []⟩).calls :=
  (batch_skip_existing_output
      (fun i o fs => (⟨i, o, true, none, some 10, some 5⟩, o :: fs))
      (fun _ => "out") ["a"] "b" [] ⟨[], [], []⟩ (by decide) (by simp)
      (by decide)).2

/-- Claim C10: every summary produced by the directory converter has
total equal to the length of its results, successful equal to the count of
successes among them, and failed equal to total minus successful. -/
theorem summary_counts
    (oracle : String → String → List String → ProcessResult × List String)
    (outPathOf : String → String) (overwrite : Bool) (files fs0 : List String) :
    (convertDirectory oracle outPathOf overwrite files fs0).total =
      (convertDirectory oracle outPathOf overwrite files fs0).results.length ∧
    (convertDirectory oracle outPathOf overwrite files fs0).successful =
      ((convertDirectory oracle outPathOf overwrite files fs0).results.filter
        (fun r => r.success)).length ∧
    (convertDirectory oracle outPathOf overwrite files fs0).failed =
      (convertDirectory oracle outPathOf overwrite files fs0).total -
        (convertDirectory oracle outPathOf overwrite files fs0).successful := by
  by_cases hf : files.isEmpty
  · simp [convertDirectory, hf]
  · simp only [convertDirectory, hf, if_false, Bool.false_eq_true]
    refine ⟨trivial, trivial, ?_⟩
    have hsplit := List.length_eq_length_filter_add
      (l := (runBatch oracle outPathOf overwrite files ⟨fs0, [], []⟩).results)
      (fun r => r.success)
    simp only at hsplit
    omega
